import Mathlib

/-!
Verification of the bevy_ase asset-processing pipeline.

This development shallowly embeds the core of the repository:
extraction (`processing.rs` / `asset/animation.rs` / `asset/tileset.rs`),
the asynchronous batch coordinator (`loader.rs`, `Loader`), and
materialization into the destination stores and lookup index
(`processing.rs` move_* functions, `asset/asset_index.rs`).

Engine-side hash maps (`bevy::utils::HashMap`, `Assets<T>` keyed by
`HandleId`) are modelled as association lists with first-binding lookup
and replace-first-or-append insertion, which matches hash-map get/insert
observationally.  `HandleId`s built by `handle_id.rs` are modelled by the
documented textual form `"path#Label"`.  Image pixel payloads are opaque
(`Nat`).  A Rust panic (`expect`/`unwrap`) is modelled by `Except`/`Option`
error propagation, since a panic unwinds the surrounding task or system.
-/

namespace BevyAse

abbrev HandleId := String

/-- Association-list lookup, first binding wins (models HashMap get). -/
def lookupKV {κ ν : Type} [DecidableEq κ] : List (κ × ν) → κ → Option ν
  | [], _ => none
  | (k0, v0) :: rest, key => if k0 = key then some v0 else lookupKV rest key

/-- Association-list insert: replaces the first binding of the key when
present, otherwise appends (models HashMap insert / `Assets::set`). -/
def insertKV {κ ν : Type} [DecidableEq κ] : List (κ × ν) → κ → ν → List (κ × ν)
  | [], key, val => [(key, val)]
  | (k0, v0) :: rest, key, val =>
    if k0 = key then (k0, val) :: rest else (k0, v0) :: insertKV rest key val

/-- Number of bindings an association list holds for a key. -/
def countKey {κ ν : Type} [DecidableEq κ] : List (κ × ν) → κ → Nat
  | [], _ => 0
  | (k0, _) :: rest, key => (if k0 = key then 1 else 0) + countKey rest key

theorem lookupKV_insertKV {κ ν : Type} [DecidableEq κ]
    (m : List (κ × ν)) (k k' : κ) (v : ν) :
    lookupKV (insertKV m k v) k' = if k = k' then some v else lookupKV m k' := by
  induction m with
  | nil => simp [insertKV, lookupKV]
  | cons hd tl ih =>
    obtain ⟨k0, v0⟩ := hd
    by_cases h0 : k0 = k
    · subst h0
      by_cases h1 : k0 = k' <;> simp [insertKV, lookupKV, h1]
    · by_cases h1 : k0 = k'
      · subst h1
        have : ¬ k = k0 := fun h => h0 h.symm
        simp [insertKV, lookupKV, h0, this]
      · simp [insertKV, lookupKV, h0, h1, ih]

theorem insertKV_self {κ ν : Type} [DecidableEq κ]
    (m : List (κ × ν)) (k : κ) (v : ν) (h : lookupKV m k = some v) :
    insertKV m k v = m := by
  induction m with
  | nil => simp [lookupKV] at h
  | cons hd tl ih =>
    obtain ⟨k0, v0⟩ := hd
    by_cases h0 : k0 = k
    · subst h0
      simp [lookupKV] at h
      simp [insertKV, h]
    · simp [lookupKV, h0] at h
      simp [insertKV, h0, ih h]

theorem countKey_insertKV {κ ν : Type} [DecidableEq κ]
    (m : List (κ × ν)) (k k' : κ) (v : ν) :
    countKey (insertKV m k v) k' =
      if countKey m k = 0 ∧ k = k' then countKey m k' + 1 else countKey m k' := by
  induction m with
  | nil =>
    by_cases h : k = k' <;> simp [insertKV, countKey, h]
  | cons hd tl ih =>
    obtain ⟨k0, v0⟩ := hd
    by_cases h0 : k0 = k
    · subst h0
      simp [insertKV, countKey]
    · by_cases h1 : k0 = k'
      · subst h1
        have hne : ¬ (k = k0) := fun h => h0 h.symm
        simp [insertKV, countKey, h0, ih]
        by_cases hz : countKey tl k = 0 <;> simp [hz, hne, Nat.add_comm]
      · simp [insertKV, countKey, h0, h1, ih]

theorem lookupKV_some_countKey_pos {κ ν : Type} [DecidableEq κ]
    (m : List (κ × ν)) (k : κ) (v : ν) (h : lookupKV m k = some v) :
    1 ≤ countKey m k := by
  induction m with
  | nil => simp [lookupKV] at h
  | cons hd tl ih =>
    obtain ⟨k0, v0⟩ := hd
    by_cases h0 : k0 = k
    · simp [countKey, h0]
    · simp [lookupKV, h0] at h
      simp [countKey, h0]
      exact ih h

/-- Helper: mapping an index-based accessor over `List.range l.length`
recovers a plain `List.map` over the list. -/
theorem map_range_getD {α β : Type} (l : List α) (d : α) (h : α → β) :
    (List.range l.length).map (fun i => h (l.getD i d)) = l.map h := by
  induction l with
  | nil => simp
  | cons hd tl ih =>
    simp only [List.length_cons, List.range_succ_eq_map, List.map_cons, List.map_map]
    refine congrArg₂ _ (by simp) ?_
    have hcomp : ((fun i => h ((hd :: tl).getD i d)) ∘ Nat.succ) =
        fun i => h (tl.getD i d) := by
      funext i
      simp
    rw [hcomp, ih]

/-! ## Source document model (asefile, as consumed by the pipeline) -/

/-- An engine texture (`bevy` `Texture`/`Image`): its pixel dimensions and
an opaque pixel payload (`Texture::new_fill` copies raw bytes we keep
abstract). -/
structure Image where
  width : Nat
  height : Nat
  data : Nat
deriving Repr, DecidableEq

/-- One frame of a decoded Aseprite document: the composed image's raw pixel
payload (opaque) and the frame duration in milliseconds.  The frame image's
dimensions are the file's canvas dimensions (`ase.width()`/`ase.height()`). -/
structure AseFrame where
  image : Nat
  duration : Nat
deriving Repr, DecidableEq

/-- asefile::Tag — a named, inclusive frame range `[from_frame, to_frame]`. -/
structure Tag where
  name : String
  from_frame : Nat
  to_frame : Nat
deriving Repr, DecidableEq

/-- asefile::Tileset through the accessors used in `tileset.rs`: id,
tile count, tile size, name.  `pixels` is the result of
`ase.tileset_image(&id)`: `none` models `TilesetImageError::NoPixelsInTileset`
for this tileset (the pixel payload conceptually lives on the file; attaching
it to the tileset record is an equivalent packaging of the same lookup). -/
structure AseTileset where
  id : Nat
  tile_count : Nat
  tile_width : Nat
  tile_height : Nat
  name : String
  pixels : Option Image
deriving Repr, DecidableEq

/-- asefile slice, as the pass-through data `slice.rs` copies. -/
structure AseSlice where
  name : String
deriving Repr, DecidableEq

/-- A decoded Aseprite file (asefile::AsepriteFile) as the pipeline reads it:
frames, tags, tilesets, slices, plus the canvas dimensions
(`ase.width()`/`ase.height()`) used to build frame textures. -/
structure AsepriteFile where
  frames : List AseFrame
  tags : List Tag
  tilesets : List AseTileset
  slices : List AseSlice
  width : Nat
  height : Nat
deriving Repr, DecidableEq

def AsepriteFile.num_frames (f : AsepriteFile) : Nat := f.frames.length

def AsepriteFile.num_tags (f : AsepriteFile) : Nat := f.tags.length

/-! ## Extraction records (`asset/animation.rs`, `asset/tileset.rs`, `slice.rs`) -/

/-- `SpriteData<T>` from `asset/animation.rs`: frame index, texture, duration. -/
structure SpriteData (T : Type) where
  frame : Nat
  texture : T
  duration : Nat
deriving Repr, DecidableEq

/-- `SpriteData::new`: builds the frame's texture via `Texture::new_fill`
from `ase.frame(f).image()` at the file's canvas dimensions, and takes
`ase.frame(f).duration()`. -/
def SpriteData.new (ase : AsepriteFile) (frame : Nat) : SpriteData Image :=
  let fr := ase.frames.getD frame ⟨0, 0⟩
  { frame := frame
    texture := ⟨ase.width, ase.height, fr.image⟩
    duration := fr.duration }

/-- `AnimationData` from `asset/animation.rs`: originating file, optional tag
name (`none` means the whole-file default animation), and the list of sprite
indices into the extracted sprite list.  (The copy of this type in
`processing.rs`'s era names the tag field `tag_name`; both versions carry the
same data.) -/
structure AnimationData where
  file : String
  tag : Option String
  sprites : List Nat
deriving Repr, DecidableEq

/-- `AnimationData::new`: the whole-file default animation; sprites are
`(0..ase.num_frames()).map(|f| sprite_offset + f)`. -/
def AnimationData.new (name : String) (ase : AsepriteFile) (sprite_offset : Nat) :
    AnimationData :=
  { file := name
    tag := none
    sprites := (List.range ase.num_frames).map (fun f => sprite_offset + f) }

/-- `AnimationData::from_tag`: sprites are
`(tag.from_frame()..tag.to_frame() + 1).map(|f| sprite_offset + f)`
(a half-open Rust range, hence empty whenever `from_frame > to_frame`). -/
def AnimationData.from_tag (name : String) (sprite_offset : Nat) (tag : Tag) :
    AnimationData :=
  { file := name
    tag := some tag.name
    sprites :=
      (List.range' tag.from_frame (tag.to_frame + 1 - tag.from_frame)).map
        (fun f => sprite_offset + f) }

/-- `TilesetError` from `asset/tileset.rs`. -/
inductive TilesetError where
  | MissingId (id : Nat)
  | NoPixels (id : Nat)
deriving Repr, DecidableEq

/-- `TilesetData<Texture>` from `asset/tileset.rs` (the `processing.rs`-era
version also carries the tileset `id`, destructured in `move_tilesets`). -/
structure TilesetData where
  id : Nat
  tile_count : Nat
  tile_width : Nat
  tile_height : Nat
  name : String
  texture : Image
deriving Repr, DecidableEq

/-- `texture_from`: `ase.tileset_image(&tileset_id)?` composed into a texture
(`Texture::new_fill` at the tile-strip image's own dimensions). -/
def texture_from (ts : AseTileset) : Except TilesetError Image :=
  match ts.pixels with
  | some img => .ok img
  | none => .error (.NoPixels ts.id)

/-- `TilesetData::from_ase_with_texture`. -/
def TilesetData.from_ase_with_texture (ts : AseTileset) :
    Except TilesetError TilesetData :=
  match texture_from ts with
  | .error e => .error e
  | .ok tx =>
    .ok { id := ts.id, tile_count := ts.tile_count, tile_width := ts.tile_width
          tile_height := ts.tile_height, name := ts.name, texture := tx }

/-- `tilesets_from` in `processing.rs`: collect per-tileset results,
first error wins. -/
def tilesets_from (ase : AsepriteFile) : Except TilesetError (List TilesetData) :=
  ase.tilesets.mapM TilesetData.from_ase_with_texture

/-- The `Slice` asset (`slice.rs`), reduced to the name key that the index
and the claims use. -/
structure Slice where
  name : String
deriving Repr, DecidableEq

def Slice.from_ase (s : AseSlice) : Slice := { name := s.name }

/-! ## Extraction (`processing.rs` `ResourceData::new`) -/

/-- `ResourceData` from `processing.rs`. -/
structure ResourceData where
  sprites : List (SpriteData Image)
  anims : List AnimationData
  tilesets : List TilesetData
  slices : List Slice
deriving Repr, DecidableEq

/-- Boolean success test for `Except` results. -/
def isOkE {ε α : Type} : Except ε α → Bool
  | .ok _ => true
  | .error _ => false

/-- `ResourceData::new`: per-frame sprites, then the whole-file default
animation followed by one `from_tag` animation per tag in declared order,
then tilesets and slices.  `sprite_offset` is `tmp_sprites.len()` taken
before the frame loop, i.e. `0`.  The source `.expect`s the `tilesets_from`
result: a `TilesetError` panics the surrounding (background) task, modelled
as `Except.error`. -/
def ResourceData.new (path : String) (file : AsepriteFile) :
    Except String ResourceData :=
  let sprite_offset : Nat := 0
  let tmp_sprites : List (SpriteData Image) :=
    (List.range file.num_frames).map (fun frame => SpriteData.new file frame)
  let tmp_anim_info : List AnimationData :=
    AnimationData.new path file sprite_offset ::
      (List.range file.num_tags).map
        (fun tag_id => AnimationData.from_tag path sprite_offset
          (file.tags.getD tag_id ⟨"", 0, 0⟩))
  match tilesets_from file with
  | .error _ => .error "Internal error: Failed to add tilesets from Ase file"
  | .ok ase_tilesets =>
    .ok { sprites := tmp_sprites, anims := tmp_anim_info
          tilesets := ase_tilesets
          slices := file.slices.map Slice.from_ase }

/-- Anatomy of a successful extraction: the payload is exactly the record
built from the file (used by several claims below). -/
theorem ResourceData.new_ok (path : String) (f : AsepriteFile) (d : ResourceData)
    (h : ResourceData.new path f = .ok d) :
    d.sprites = (List.range f.num_frames).map (fun frame => SpriteData.new f frame) ∧
    d.anims = AnimationData.new path f 0 ::
      (List.range f.num_tags).map
        (fun tag_id => AnimationData.from_tag path 0 (f.tags.getD tag_id ⟨"", 0, 0⟩)) ∧
    tilesets_from f = .ok d.tilesets ∧
    d.slices = f.slices.map Slice.from_ase := by
  unfold ResourceData.new at h
  cases hts : tilesets_from f with
  | error e => rw [hts] at h; exact absurd h (by simp)
  | ok ts =>
    rw [hts] at h
    simp only [Except.ok.injEq] at h
    subst h
    simp

/-- The anims tail of a successful extraction, rewritten from range-indexed
form to a plain map over the declared tags. -/
theorem anims_tail_eq (path : String) (f : AsepriteFile) :
    (List.range f.num_tags).map
        (fun tag_id => AnimationData.from_tag path 0 (f.tags.getD tag_id ⟨"", 0, 0⟩)) =
      f.tags.map (AnimationData.from_tag path 0) := by
  have := map_range_getD f.tags ⟨"", 0, 0⟩ (AnimationData.from_tag path 0)
  simpa [AsepriteFile.num_tags] using this

/-! ## Handle ids (`handle_id.rs`) — modelled by their documented textual
form `"path#Label"` -/

namespace handle_id

def make (path : String) (kind : String) (suffix : Option String) : HandleId :=
  path ++ "#" ++ kind ++ (match suffix with | some s => s | none => "")

def animation (path : String) (tag_name : String) : HandleId :=
  make path "Animation/" (some tag_name)

def frame_image (path : String) (frame : Nat) : HandleId :=
  make path "FrameImage" (some (toString frame))

def atlas (path : String) : HandleId :=
  make path "Atlas" none

def tileset (path : String) (tileset_id : Nat) : HandleId :=
  make path "Tileset" (some (toString tileset_id))

def tileset_image (path : String) (tileset_id : Nat) : HandleId :=
  make path "TilesetImage" (some (toString tileset_id))

def slice (path : String) (name : String) : HandleId :=
  make path "Slice/" (some name)

end handle_id

/-! ## Destination stores and the lookup index (`asset/asset_index.rs`) -/

/-- An engine asset store `Assets<T>`, keyed by `HandleId`. -/
abbrev Store (α : Type) := List (HandleId × α)

/-- A produced texture atlas: `textures` lists the handles added to the
`TextureAtlasBuilder`, in addition order; `get_texture_index` maps a handle
to its slot (the builder's packing is external engine code whose slot
numbering we fix as addition order). -/
structure Atlas where
  textures : List HandleId
deriving Repr, DecidableEq

def indexOfH : List HandleId → HandleId → Option Nat
  | [], _ => none
  | x :: rest, h => if x = h then some 0 else (indexOfH rest h).map (· + 1)

def Atlas.get_texture_index (a : Atlas) (h : HandleId) : Option Nat :=
  indexOfH a.textures h

/-- A frame of a final `Animation` asset: atlas slot plus duration. -/
structure Frame where
  atlas_index : Nat
  duration_ms : Nat
deriving Repr, DecidableEq

/-- The final `Animation` asset. -/
structure Animation where
  frames : List Frame
  atlas : HandleId
deriving Repr, DecidableEq

/-- The final `Tileset` asset. -/
structure Tileset where
  id : Nat
  name : String
  texture : HandleId
  tile_count : Nat
  tile_width : Nat
  tile_height : Nat
deriving Repr, DecidableEq

/-- `AseAssetMap`: per-file lookup index mapping names/indices to handles. -/
structure AseAssetMap where
  animations : List (String × HandleId)
  slices : List (String × HandleId)
  tilesets : List (Nat × HandleId)
  textures : List (Nat × HandleId)
  atlas : HandleId
deriving Repr, DecidableEq

def AseAssetMap.empty : AseAssetMap := ⟨[], [], [], [], ""⟩

def AseAssetMap.insert_animation (m : AseAssetMap) (tag_name : String)
    (h : HandleId) : AseAssetMap :=
  { m with animations := insertKV m.animations tag_name h }

def AseAssetMap.insert_tileset (m : AseAssetMap) (tileset_id : Nat)
    (h : HandleId) : AseAssetMap :=
  { m with tilesets := insertKV m.tilesets tileset_id h }

def AseAssetMap.insert_slice (m : AseAssetMap) (slice_name : String)
    (h : HandleId) : AseAssetMap :=
  { m with slices := insertKV m.slices slice_name h }

def AseAssetMap.insert_texture (m : AseAssetMap) (frame_index : Nat)
    (h : HandleId) : AseAssetMap :=
  { m with textures := insertKV m.textures frame_index h }

def AseAssetMap.insert_atlas (m : AseAssetMap) (h : HandleId) : AseAssetMap :=
  { m with atlas := h }

/-! ## Materialization (`processing.rs` move_* functions) -/

/-- `move_slices`: insert each slice under `handle_id::slice` and record it
in the per-file index. -/
def move_slices (path : String) :
    List Slice → Store Slice → AseAssetMap → Store Slice × AseAssetMap
  | [], slices, file_assets => (slices, file_assets)
  | s :: rest, slices, file_assets =>
    let slice_id := handle_id.slice path s.name
    let slices := insertKV slices slice_id s
    let file_assets := file_assets.insert_slice s.name slice_id
    move_slices path rest slices file_assets

/-- `move_tilesets`: insert each tileset texture and tileset asset under
their `handle_id`s and record the tileset in the per-file index. -/
def move_tilesets (path : String) :
    List TilesetData → Store Image → Store Tileset → AseAssetMap →
      Store Image × Store Tileset × AseAssetMap
  | [], textures, tilesets, file_assets => (textures, tilesets, file_assets)
  | ts :: rest, textures, tilesets, file_assets =>
    let image_handle_id := handle_id.tileset_image path ts.id
    let textures := insertKV textures image_handle_id ts.texture
    let tileset : Tileset :=
      ⟨ts.id, ts.name, image_handle_id, ts.tile_count, ts.tile_width, ts.tile_height⟩
    let tileset_handle_id := handle_id.tileset path ts.id
    let tilesets := insertKV tilesets tileset_handle_id tileset
    let file_assets := file_assets.insert_tileset ts.id tileset_handle_id
    move_tilesets path rest textures tilesets file_assets

/-- The per-sprite loop of `move_sprites`: insert each frame image, record
its handle in the index, collect the handle-carrying sprite list and the
builder's (handle, texture) list (in frame order).  The source re-fetches
the just-inserted image (`images.get(..).expect("Image missing")`) before
adding it to the builder; the model passes the same texture directly. -/
def move_sprites_loop (path : String) :
    List (SpriteData Image) → Store Image → AseAssetMap →
      Store Image × AseAssetMap × List (SpriteData HandleId) × List (HandleId × Image)
  | [], images, file_assets => (images, file_assets, [], [])
  | s :: rest, images, file_assets =>
    let image_handle_id := handle_id.frame_image path s.frame
    let images := insertKV images image_handle_id s.texture
    let file_assets := file_assets.insert_texture s.frame image_handle_id
    let (images2, fa2, hs, builder) := move_sprites_loop path rest images file_assets
    (images2, fa2, ⟨s.frame, image_handle_id, s.duration⟩ :: hs,
      (image_handle_id, s.texture) :: builder)

/-- The maximum atlas dimensions of the engine's default
`TextureAtlasBuilder` configuration. -/
def MAX_ATLAS_SIZE : Nat := 2048

/-- `TextureAtlasBuilder::finish` — external engine code (bevy), modelled by
the packing contract the spec states for it: it fails (a `PackingError`)
exactly when an individual added image cannot be placed because it exceeds
the maximum atlas dimensions; on success every added texture handle gets
the slot matching its addition order. -/
def atlasBuilderFinish (builder : List (HandleId × Image)) : Option Atlas :=
  if builder.all (fun t =>
      t.2.width ≤ MAX_ATLAS_SIZE && t.2.height ≤ MAX_ATLAS_SIZE) then
    some ⟨builder.map (fun t => t.1)⟩
  else none

structure MoveSpritesOut where
  sprite_handles : List (SpriteData HandleId)
  atlas_handle : HandleId
  images : Store Image
  atlases : Store Atlas
  file_assets : AseAssetMap
deriving Repr, DecidableEq

/-- `move_sprites`: inserts frame images, builds the atlas from all frame
textures, stores it under `handle_id::atlas`, and records it in the file
index.  The source `.expect`s the builder result
("Creating texture atlas failed"): a `PackingError` panics the system,
modelled as `Option.none`.  The source also switches the atlas texture's
sampler to nearest, a mutation of opaque pixel data not modelled here. -/
def move_sprites (path : String) (sprites : List (SpriteData Image))
    (images : Store Image) (atlases : Store Atlas) (file_assets : AseAssetMap) :
    Option MoveSpritesOut :=
  let looped := move_sprites_loop path sprites images file_assets
  match atlasBuilderFinish looped.2.2.2 with
  | none => none
  | some atlas =>
    let atlas_handle_id := handle_id.atlas path
    let atlases := insertKV atlases atlas_handle_id atlas
    let file_assets := looped.2.1.insert_atlas atlas_handle_id
    some ⟨looped.2.2.1, atlas_handle_id, looped.1, atlases, file_assets⟩

/-- The frames loop inside `move_animations`: for each sprite index, fetch
the sprite record (`&sprite_data[sprite_id]` — an out-of-bounds index
panics, modelled as `none`) and its atlas slot
(`atlas.get_texture_index(..).expect("Failed to get texture from atlas")` —
an absent texture panics, modelled as `none`). -/
def frames_of (sprite_data : List (SpriteData HandleId)) (atlas : Atlas) :
    List Nat → Option (List Frame)
  | [] => some []
  | sprite_id :: rest =>
    match sprite_data[sprite_id]? with
    | none => none
    | some tmp_sprite =>
      match atlas.get_texture_index tmp_sprite.texture with
      | none => none
      | some atlas_index =>
        match frames_of sprite_data atlas rest with
        | none => none
        | some fs => some ((⟨atlas_index, tmp_sprite.duration⟩ : Frame) :: fs)

/-- `move_animations`: for every animation record that carries a tag name,
resolve its sprite indices into atlas slots (panicking — `none` — on an
out-of-bounds sprite index or a texture missing from the atlas), build the
`Animation` asset, store it under `handle_id::animation(path, tag_name)`
and record it in the per-file index under the tag name; records without a
tag name (the whole-file default animation) are skipped. -/
def move_animations (path : String) :
    List AnimationData → List (SpriteData HandleId) → Atlas → HandleId →
      Store Animation → AseAssetMap → Option (Store Animation × AseAssetMap)
  | [], _, _, _, animations, file_assets => some (animations, file_assets)
  | anim_data :: rest, sprite_data, atlas, atlas_handle, animations, file_assets =>
    match anim_data.tag with
    | some tag_name =>
      match frames_of sprite_data atlas anim_data.sprites with
      | none => none
      | some frames =>
        let anim_id := handle_id.animation path tag_name
        let asset : Animation := ⟨frames, atlas_handle⟩
        let animations := insertKV animations anim_id asset
        let file_assets := file_assets.insert_animation tag_name anim_id
        move_animations path rest sprite_data atlas atlas_handle animations file_assets
    | none =>
      move_animations path rest sprite_data atlas atlas_handle animations file_assets

/-- The tuple of destination stores (`AseAssetResources` in `loader.rs`):
the texture store plus optionally-present stores and the lookup index. -/
structure Resources where
  textures : Store Image
  animations : Option (Store Animation)
  atlases : Option (Store Atlas)
  tilesets : Option (Store Tileset)
  slices : Option (Store Slice)
  index : Option (List (String × AseAssetMap))
deriving Repr, DecidableEq

/-- `ResourceData::move_into_resources`: materialize one file's records.
The source `.expect`s a present file map (`none` index panics, modelled as
`Option.none`), then runs the `if let Some` chain: slices, tilesets,
sprites+atlas, and (only when both atlases and animations stores exist)
animations; the `atlases.get(&atlas_handle).unwrap()` and the panics inside
`move_sprites`/`move_animations` propagate as `none`.  The per-file
`AseAssetMap` is fetched with entry-or-default and written back. -/
def ResourceData.move_into_resources (data : ResourceData) (path : String)
    (r : Resources) : Option Resources :=
  match r.index with
  | none => none
  | some fileMap =>
    let fa := (lookupKV fileMap path).getD AseAssetMap.empty
    let sliced : Option (Store Slice) × AseAssetMap :=
      match r.slices with
      | some ss =>
        let (ss, fa) := move_slices path data.slices ss fa
        (some ss, fa)
      | none => (none, fa)
    let fa := sliced.2
    let tiled : Store Image × Option (Store Tileset) × AseAssetMap :=
      match r.tilesets with
      | some ts =>
        let (tex, ts, fa) := move_tilesets path data.tilesets r.textures ts fa
        (tex, some ts, fa)
      | none => (r.textures, none, fa)
    let fa := tiled.2.2
    match r.atlases with
    | none =>
      some { textures := tiled.1, animations := r.animations, atlases := none
             tilesets := tiled.2.1, slices := sliced.1
             index := some (insertKV fileMap path fa) }
    | some atlases =>
      match move_sprites path data.sprites tiled.1 atlases fa with
      | none => none
      | some out =>
        match r.animations with
        | none =>
          some { textures := out.images, animations := none
                 atlases := some out.atlases, tilesets := tiled.2.1
                 slices := sliced.1
                 index := some (insertKV fileMap path out.file_assets) }
        | some animations =>
          match lookupKV out.atlases out.atlas_handle with
          | none => none
          | some atlas =>
            match move_animations path data.anims out.sprite_handles
                atlas out.atlas_handle animations out.file_assets with
            | none => none
            | some moved =>
              some { textures := out.images, animations := some moved.1
                     atlases := some out.atlases, tilesets := tiled.2.1
                     slices := sliced.1
                     index := some (insertKV fileMap path moved.2) }

/-! ## The async batch coordinator (`loader.rs` `Loader`) -/

/-- `AseData` from `asset/ase.rs`: a decoded document, or already moved out. -/
inductive AseData where
  | Loaded (file : AsepriteFile)
  | Processed
deriving Repr, DecidableEq

/-- `AseAsset`: the decoded document state plus the file's path. -/
structure AseAsset where
  data : AseData
  name : String
deriving Repr, DecidableEq

/-- One finished batch: per-file extraction results keyed by path
(the source collects them into a `HashMap<PathBuf, ResourceData>`). -/
abbrev Batch := List (String × ResourceData)

/-- `ResourceDataByFile::new`: extract every file of the batch.  A panic
from `ResourceData::new` (its `.expect`) unwinds the entire background
task, modelled by `Except` propagation. -/
def ResourceDataByFile.new (ases : List (String × AsepriteFile)) :
    Except String Batch :=
  ases.mapM (fun pf =>
    match ResourceData.new pf.1 pf.2 with
    | .error e => .error e
    | .ok d => .ok (pf.1, d))

/-- `ResourceDataByFile::move_into_resources`: materialize every file of a
finished batch in turn. -/
def batchMoveIntoResources : Batch → Resources → Option Resources
  | [], r => some r
  | (path, data) :: rest, r =>
    match data.move_into_resources path r with
    | none => none
    | some r2 => batchMoveIntoResources rest r2

/-- The `u32` modulus of the `AtomicU32` in-flight counter (2^32). -/
def U32_MOD : Nat := 4294967296

/-- The `Loader` resource: pending handles, the atomic in-flight batch
counter, and the mutex-guarded outbox of finished batches. -/
structure Loader where
  todo_handles : List HandleId
  in_progress : Nat
  done : List Batch
deriving Repr, DecidableEq

/-- `Loader::pending_count`: loads the in-flight counter. -/
def Loader.pending_count (l : Loader) : Nat := l.in_progress

/-- `Loader::is_loaded` (the spec's `is_idle`). -/
def Loader.is_loaded (l : Loader) : Bool :=
  l.todo_handles.isEmpty && l.pending_count == 0

/-- The handle loop inside `spawn_tasks`: for each handle, fetch the asset
(`expect`s presence — a missing handle panics, modelled as `Except.error`),
swap its document out (replacing it with `Processed`), and push still-loaded
documents in order. -/
def collectAseFiles : Store AseAsset → List HandleId →
    Except String (Store AseAsset × List (String × AsepriteFile))
  | aseprites, [] => .ok (aseprites, [])
  | aseprites, h :: rest =>
    match lookupKV aseprites h with
    | none => .error "Failed to get aseprite from handle"
    | some asset =>
      let aseprites := insertKV aseprites h { asset with data := AseData.Processed }
      match collectAseFiles aseprites rest with
      | .error e => .error e
      | .ok (aseprites2, files) =>
        match asset.data with
        | AseData.Loaded ase => .ok (aseprites2, (asset.name, ase) :: files)
        | AseData.Processed => .ok (aseprites2, files)

/-- Result of a `spawn_tasks` call: the updated loader and asset store, and
the file list handed to the single spawned background task (if any). -/
structure SpawnResult where
  loader : Loader
  aseprites : Store AseAsset
  task : Option (List (String × AsepriteFile))
deriving Repr, DecidableEq

/-- `Loader::spawn_tasks`: no-op when nothing is pending; otherwise
increments the in-flight counter once, takes all pending handles at once,
moves their documents out of the asset store, and dispatches them as one
background task. -/
def Loader.spawn_tasks (l : Loader) (aseprites : Store AseAsset) :
    Except String SpawnResult :=
  if l.todo_handles.isEmpty then .ok ⟨l, aseprites, none⟩
  else
    let in_progress := (l.in_progress + 1) % U32_MOD
    match collectAseFiles aseprites l.todo_handles with
    | .error e => .error e
    | .ok (aseprites2, ase_files) =>
      .ok ⟨{ todo_handles := [], in_progress := in_progress, done := l.done },
           aseprites2, some ase_files⟩

/-- The spawned background task's effect on completion: process the batch
and push the result bundle into the outbox.  A panic inside the task
(error) aborts it before the push; the loader is untouched. -/
def taskComplete (files : List (String × AsepriteFile)) (l : Loader) : Loader :=
  match ResourceDataByFile.new files with
  | .ok processed => { l with done := l.done ++ [processed] }
  | .error _ => l

/-- `Loader::take_finished`: non-blocking try-lock on the outbox
(`lockAcquired = false` models try_lock contention); on success, swap the
outbox contents out, returning `none` when it was empty. -/
def Loader.take_finished (l : Loader) (lockAcquired : Bool) :
    Option (List Batch) × Loader :=
  if lockAcquired then
    let results := l.done
    let l2 : Loader := { l with done := [] }
    if results.isEmpty then (none, l2) else (some results, l2)
  else (none, l)

/-- The drain loop of `move_finished_into_resources`: materialize each
finished batch and decrement the in-flight counter once per batch
(`AtomicU32::fetch_sub`, i.e. wrapping subtraction). -/
def drainBatches : List Batch → Loader → Resources → Option (Loader × Resources)
  | [], l, r => some (l, r)
  | b :: rest, l, r =>
    match batchMoveIntoResources b r with
    | none => none
    | some r2 =>
      drainBatches rest
        { l with in_progress := (l.in_progress + (U32_MOD - 1)) % U32_MOD } r2

/-- `Loader::move_finished_into_resources`: drain the outbox if the lock is
free and materialize what was taken. -/
def Loader.move_finished_into_resources (l : Loader) (r : Resources)
    (lockAcquired : Bool) : Option (Loader × Resources) :=
  match l.take_finished lockAcquired with
  | (none, l2) => some (l2, r)
  | (some finished, l2) => drainBatches finished l2 r

/-! ## Claims C3, C4, C5 — extraction shape -/

/-- C3: for every source document with N frames, extraction
(`ResourceData::new`) produces exactly N frame records in frame-index order,
and its animation list starts with the whole-file default animation whose
sprite-index list is exactly `[0, 1, ..., N-1]`, followed by exactly one
entry per declared tag in source-declared order. -/
theorem c3_extraction_shape (path : String) (f : AsepriteFile) (d : ResourceData)
    (hok : ResourceData.new path f = .ok d) :
    d.sprites.length = f.frames.length ∧
    (∀ i, d.sprites.getD i ⟨0, ⟨0, 0, 0⟩, 0⟩ = SpriteData.new f i ∨
      f.frames.length ≤ i) ∧
    ∃ d0 rest, d.anims = d0 :: rest ∧
      d0.tag = none ∧
      d0.sprites = List.range f.frames.length ∧
      rest.length = f.tags.length ∧
      rest.map (fun a => a.tag) = f.tags.map (fun t => some t.name) := by
  obtain ⟨hs, ha, -, -⟩ := ResourceData.new_ok path f d hok
  refine ⟨by simp [hs, AsepriteFile.num_frames], ?_, ?_⟩
  · intro i
    by_cases hi : i < f.frames.length
    · left
      rw [hs]
      have : i < ((List.range f.num_frames).map
          (fun frame => SpriteData.new f frame)).length := by
        simpa [AsepriteFile.num_frames] using hi
      rw [List.getD_eq_getElem _ _ this]
      simp [AsepriteFile.num_frames]
    · right; omega
  · refine ⟨AnimationData.new path f 0, f.tags.map (AnimationData.from_tag path 0),
      by rw [ha, anims_tail_eq], rfl, ?_, by simp, ?_⟩
    · simp [AnimationData.new, AsepriteFile.num_frames]
    · simp [List.map_map, AnimationData.from_tag, Function.comp]

def c3File : AsepriteFile :=
  ⟨[⟨7, 100⟩, ⟨8, 200⟩], [⟨"walk", 0, 1⟩], [], [], 16, 16⟩

def c3Data : ResourceData :=
  ⟨[⟨0, ⟨16, 16, 7⟩, 100⟩, ⟨1, ⟨16, 16, 8⟩, 200⟩],
   [⟨"p", none, [0, 1]⟩, ⟨"p", some "walk", [0, 1]⟩], [], []⟩

theorem c3_witness : c3Data.sprites.length = c3File.frames.length :=
  (c3_extraction_shape "p" c3File c3Data (by rfl)).1

/-- C4: for every tag with declared range `[a, b]`, `a ≤ b`, the animation
built by `AnimationData::from_tag` with sprite offset `k` has sprite list
exactly `[k+a, k+a+1, ..., k+b]` (here `List.range' (k+a) (b+1-a)`),
inclusive of both endpoints. -/
theorem c4_from_tag_range (path : String) (k : Nat) (tag : Tag)
    (hab : tag.from_frame ≤ tag.to_frame) :
    (AnimationData.from_tag path k tag).sprites =
      List.range' (k + tag.from_frame) (tag.to_frame + 1 - tag.from_frame) ∧
    (AnimationData.from_tag path k tag).sprites.head? =
      some (k + tag.from_frame) ∧
    (AnimationData.from_tag path k tag).sprites.getLast? =
      some (k + tag.to_frame) := by
  have hr : (AnimationData.from_tag path k tag).sprites =
      List.range' (k + tag.from_frame) (tag.to_frame + 1 - tag.from_frame) := by
    simp [AnimationData.from_tag,
      List.map_add_range' k tag.from_frame (tag.to_frame + 1 - tag.from_frame) 1]
  refine ⟨hr, ?_, ?_⟩
  · obtain ⟨m, hm⟩ : ∃ m, tag.to_frame + 1 - tag.from_frame = m + 1 :=
      ⟨tag.to_frame - tag.from_frame, by omega⟩
    rw [hr, hm, List.range'_succ]
    rfl
  · rw [hr, List.getLast?_range']
    have hne : tag.to_frame + 1 - tag.from_frame ≠ 0 := by omega
    rw [if_neg hne]
    congr 1
    omega

theorem c4_witness :
    (AnimationData.from_tag "p" 3 ⟨"run", 1, 4⟩).sprites = List.range' 4 4 :=
  (c4_from_tag_range "p" 3 ⟨"run", 1, 4⟩ (by decide)).1

/-! ### Claim C5 — corrected

The spec says a tag whose declared range is empty or inverted
(`from_frame > to_frame`) makes extraction fail with a `DecodeError`.
The code does no such check: `AnimationData::from_tag` builds the Rust
range `from..to+1`, which is simply empty when `from > to`, so extraction
succeeds and the tag becomes an animation record with an empty sprite
list (the tag name is kept). -/

def c5File : AsepriteFile :=
  ⟨[⟨10, 100⟩, ⟨11, 100⟩, ⟨12, 100⟩], [⟨"t", 2, 1⟩], [], [], 16, 16⟩

/-- C5 counterexample: a file whose single tag has inverted range `[2, 1]`
is extracted successfully (no `DecodeError`), producing an animation record
for the tag with an empty sprite list. -/
theorem c5_counterexample :
    isOkE (ResourceData.new "a.aseprite" c5File) = true ∧
    (match ResourceData.new "a.aseprite" c5File with
     | .ok d => d.anims.map (fun a => (a.tag, a.sprites))
     | .error _ => []) = [(none, [0, 1, 2]), (some "t", [])] := by
  constructor
  · rfl
  · rfl

/-- C5 amended: a tag with an inverted range (`to_frame < from_frame`) is
not a decode error; extraction keeps the tag as an animation record with
its name and an empty sprite list, and `ResourceData::new` fails only on
tileset extraction failures, never because of tag ranges. -/
theorem c5_amended :
    (∀ path k tag, tag.to_frame < tag.from_frame →
      (AnimationData.from_tag path k tag).sprites = [] ∧
      (AnimationData.from_tag path k tag).tag = some tag.name) ∧
    (∀ path f, isOkE (ResourceData.new path f) = isOkE (tilesets_from f)) := by
  constructor
  · intro path k tag h
    have hz : tag.to_frame + 1 - tag.from_frame = 0 := by omega
    constructor
    · simp [AnimationData.from_tag, hz]
    · rfl
  · intro path f
    unfold ResourceData.new
    cases hts : tilesets_from f <;> simp [isOkE]

theorem c5_amended_witness :
    (AnimationData.from_tag "p" 0 ⟨"t", 2, 1⟩).sprites = [] ∧
    (AnimationData.from_tag "p" 0 ⟨"t", 2, 1⟩).tag = some "t" :=
  c5_amended.1 "p" 0 ⟨"t", 2, 1⟩ (by decide)

/-! ## Claim C1 — the idle signal -/

/-- C1: `is_loaded()` is true iff the pending-handle list is empty and the
in-flight counter is zero; in particular it is never true merely because
the outbox is empty while a dispatched batch is still running. -/
theorem c1_is_loaded_iff (l : Loader) :
    (l.is_loaded = true ↔ l.todo_handles = [] ∧ l.in_progress = 0) ∧
    (l.done = [] → l.in_progress ≠ 0 → l.is_loaded = false) := by
  constructor
  · simp [Loader.is_loaded, Loader.pending_count, List.isEmpty_iff]
  · intro _ hp
    simp [Loader.is_loaded, Loader.pending_count, hp]

theorem c1_witness : Loader.is_loaded ⟨[], 1, []⟩ = false :=
  (c1_is_loaded_iff ⟨[], 1, []⟩).2 rfl (by decide)

/-! ## Claim C7 — contended lock leaves everything unchanged -/

/-- C7: when the try-lock on the outbox fails, the drain step returns
immediately and the whole loader state, the outbox, and all destination
stores and the index are exactly as before the poll. -/
theorem c7_contended_poll_unchanged (l : Loader) (r : Resources) :
    Loader.move_finished_into_resources l r false = some (l, r) := by
  simp [Loader.move_finished_into_resources, Loader.take_finished]

/-! ## Claim C6 — single-task dispatch, per-batch decrement -/

/-- Counter bookkeeping of the drain loop: one wrapping decrement per batch,
outbox and pending handles untouched. -/
theorem drainBatches_counter (bs : List Batch) :
    ∀ (l : Loader) (r : Resources) (l2 : Loader) (r2 : Resources),
      l.in_progress < U32_MOD →
      drainBatches bs l r = some (l2, r2) →
      l2.in_progress = (l.in_progress + (U32_MOD - 1) * bs.length) % U32_MOD ∧
      l2.done = l.done ∧ l2.todo_handles = l.todo_handles := by
  induction bs with
  | nil =>
    intro l r l2 r2 hlt h
    simp only [drainBatches, Option.some.injEq, Prod.mk.injEq] at h
    obtain ⟨rfl, rfl⟩ := h
    simp [Nat.mod_eq_of_lt hlt]
  | cons b rest ih =>
    intro l r l2 r2 hlt h
    cases hb : batchMoveIntoResources b r with
    | none => simp [drainBatches, hb] at h
    | some r3 =>
      simp only [drainBatches, hb] at h
      have hlt2 : (l.in_progress + (U32_MOD - 1)) % U32_MOD < U32_MOD :=
        Nat.mod_lt _ (by decide)
      obtain ⟨h1, h2, h3⟩ :=
        ih { l with in_progress := (l.in_progress + (U32_MOD - 1)) % U32_MOD }
          r3 l2 r2 hlt2 h
      refine ⟨?_, h2, h3⟩
      rw [h1, Nat.mod_add_mod]
      congr 1
      simp only [List.length_cons]
      ring

/-- An acquired-lock poll drains the whole outbox through the batch loop. -/
theorem move_finished_spec (l : Loader) (r : Resources) :
    Loader.move_finished_into_resources l r true =
      drainBatches l.done { l with done := [] } r := by
  unfold Loader.move_finished_into_resources Loader.take_finished
  cases hd : l.done with
  | nil => simp [drainBatches]
  | cons b rest => simp

/-- C6: dispatching a non-empty pending list moves all handles into one
background task at once (pending list emptied, in-flight counter bumped by
exactly one, a single task spawned), and the drain step decrements the
counter exactly once per finished batch taken from the outbox. -/
theorem c6_single_task_dispatch :
    (∀ (l : Loader) (aseprites : Store AseAsset) (res : SpawnResult),
      l.todo_handles ≠ [] →
      Loader.spawn_tasks l aseprites = .ok res →
      res.loader.todo_handles = [] ∧
      res.loader.in_progress = (l.in_progress + 1) % U32_MOD ∧
      res.task.isSome = true) ∧
    (∀ (l l2 : Loader) (r r2 : Resources),
      l.in_progress < U32_MOD →
      Loader.move_finished_into_resources l r true = some (l2, r2) →
      l2.in_progress = (l.in_progress + (U32_MOD - 1) * l.done.length) % U32_MOD ∧
      l2.done = []) := by
  constructor
  · intro l aseprites res hne hok
    have hempty : l.todo_handles.isEmpty = false := by
      cases hl : l.todo_handles with
      | nil => exact absurd hl hne
      | cons a as => rfl
    unfold Loader.spawn_tasks at hok
    rw [hempty] at hok
    simp only [Bool.false_eq_true, if_false] at hok
    cases hc : collectAseFiles aseprites l.todo_handles with
    | error e => rw [hc] at hok; exact absurd hok (by simp)
    | ok pair =>
      rw [hc] at hok
      simp only [Except.ok.injEq] at hok
      subst hok
      simp
  · intro l l2 r r2 hlt h
    rw [move_finished_spec] at h
    have hcount := drainBatches_counter l.done { l with done := [] } r l2 r2 hlt h
    exact ⟨hcount.1, hcount.2.1⟩

def emptyResources : Resources :=
  ⟨[], some [], some [], some [], some [], some []⟩

def c6File : AsepriteFile := ⟨[⟨5, 100⟩], [], [], [], 16, 16⟩

def c6Ase : Store AseAsset := [("h", ⟨AseData.Loaded c6File, "p"⟩)]

def c6Spawn : SpawnResult :=
  ⟨⟨[], 1, []⟩, [("h", ⟨AseData.Processed, "p"⟩)], some [("p", c6File)]⟩

theorem c6_witness :
    ((c6Spawn.loader.todo_handles = [] ∧
      c6Spawn.loader.in_progress = (0 + 1) % U32_MOD ∧
      c6Spawn.task.isSome = true) ∧
     ((Loader.mk [] 1 []).in_progress =
        (1 + (U32_MOD - 1) * (Loader.mk [] 1 []).done.length) % U32_MOD ∧
      (Loader.mk [] 1 []).done = [])) :=
  ⟨c6_single_task_dispatch.1 ⟨["h"], 0, []⟩ c6Ase c6Spawn (by decide) (by rfl),
   c6_single_task_dispatch.2 ⟨[], 1, []⟩ ⟨[], 1, []⟩ emptyResources emptyResources
     (by decide) (by rfl)⟩

/-! ## Claim C2 — corrected: per-file failures are NOT isolated

The spec's propagation policy says a `DecodeError`/`PackingError`-class
failure while extracting or packing one file is isolated: sibling files of
the batch still materialize and the in-flight counter is still decremented
once.  The code instead `.expect`s the per-file tileset extraction result
inside `ResourceData::new`, which panics the whole background task: the
result bundle is never pushed to the outbox, sibling files are never
materialized, the counter is never decremented, and `is_loaded()` stays
false forever. -/

def c2BadFile : AsepriteFile :=
  ⟨[⟨1, 50⟩], [], [⟨0, 4, 8, 8, "terrain", none⟩], [], 16, 16⟩

def c2GoodFile : AsepriteFile := ⟨[⟨2, 60⟩], [], [], [], 16, 16⟩

def c2Batch : List (String × AsepriteFile) :=
  [("bad.aseprite", c2BadFile), ("good.aseprite", c2GoodFile)]

def c2Loader : Loader := ⟨[], 1, []⟩

/-- C2 counterexample: a two-file batch whose first file has a tileset with
no pixel data.  Extraction of the batch fails as a whole (the task panics),
so the completed-task step publishes nothing, the sibling file
"good.aseprite" is never materialized by a drain, the in-flight counter is
still 1, and `is_loaded()` remains false. -/
theorem c2_counterexample :
    isOkE (ResourceDataByFile.new c2Batch) = false ∧
    taskComplete c2Batch c2Loader = c2Loader ∧
    c2Loader.is_loaded = false ∧
    Loader.move_finished_into_resources (taskComplete c2Batch c2Loader)
        emptyResources true =
      some (c2Loader, emptyResources) := by
  exact ⟨rfl, rfl, rfl, rfl⟩

/-- C2 amended: a `DecodeError`-class failure while extracting any file of a
dispatched batch panics the background task: the batch result is never
pushed to the outbox, so no file of the batch (sibling or not) is
materialized, the in-flight counter is never decremented for the batch, and
`is_loaded()` does not return true while that counter is nonzero. -/
theorem c2_amended (files : List (String × AsepriteFile)) (l : Loader)
    (e : String) (h : ResourceDataByFile.new files = .error e) :
    taskComplete files l = l ∧
    (l.in_progress ≠ 0 → l.is_loaded = false) := by
  constructor
  · simp [taskComplete, h]
  · intro hp
    simp [Loader.is_loaded, Loader.pending_count, hp]

theorem c2_amended_witness : c2Loader.is_loaded = false :=
  (c2_amended c2Batch c2Loader
    "Internal error: Failed to add tilesets from Ase file" rfl).2 (by decide)

/-! ## Claim C8 — duplicate tag names: helper lemmas on `move_animations` -/

theorem countKey_insertKV_le {κ ν : Type} [DecidableEq κ]
    (m : List (κ × ν)) (k k' : κ) (v : ν) (h : countKey m k' ≤ 1) :
    countKey (insertKV m k v) k' ≤ 1 := by
  rw [countKey_insertKV]
  by_cases hc : countKey m k = 0 ∧ k = k'
  · rw [if_pos hc]
    obtain ⟨h0, rfl⟩ := hc
    omega
  · rw [if_neg hc]
    exact h

theorem countKey_insertKV_ge {κ ν : Type} [DecidableEq κ]
    (m : List (κ × ν)) (k k' : κ) (v : ν) :
    countKey m k' ≤ countKey (insertKV m k v) k' := by
  rw [countKey_insertKV]
  by_cases hc : countKey m k = 0 ∧ k = k'
  · rw [if_pos hc]; omega
  · rw [if_neg hc]

/-- Step equation of `move_animations`: a record without a tag name is
skipped (the source's `if let Some(tag_name)` falls through). -/
theorem move_animations_cons_none (path : String) (a : AnimationData)
    (rest : List AnimationData) (sd : List (SpriteData HandleId)) (atlas : Atlas)
    (ah : HandleId) (anims : Store Animation) (fa : AseAssetMap)
    (ha : a.tag = none) :
    move_animations path (a :: rest) sd atlas ah anims fa =
      move_animations path rest sd atlas ah anims fa := by
  simp [move_animations, ha]

/-- Step equation of `move_animations`: a tagged record whose frames
resolve inserts into the store and the index and continues. -/
theorem move_animations_cons_tag (path : String) (a : AnimationData)
    (rest : List AnimationData) (sd : List (SpriteData HandleId)) (atlas : Atlas)
    (ah : HandleId) (anims : Store Animation) (fa : AseAssetMap)
    (t : String) (frames : List Frame)
    (ha : a.tag = some t) (hf : frames_of sd atlas a.sprites = some frames) :
    move_animations path (a :: rest) sd atlas ah anims fa =
      move_animations path rest sd atlas ah
        (insertKV anims (handle_id.animation path t) ⟨frames, ah⟩)
        (fa.insert_animation t (handle_id.animation path t)) := by
  simp [move_animations, ha, hf]

/-- Step equation of `move_animations`: a tagged record whose frames do not
resolve panics the whole call. -/
theorem move_animations_cons_tag_panic (path : String) (a : AnimationData)
    (rest : List AnimationData) (sd : List (SpriteData HandleId)) (atlas : Atlas)
    (ah : HandleId) (anims : Store Animation) (fa : AseAssetMap) (t : String)
    (ha : a.tag = some t) (hf : frames_of sd atlas a.sprites = none) :
    move_animations path (a :: rest) sd atlas ah anims fa = none := by
  simp [move_animations, ha, hf]

/-- Lookup in the per-file index after a successful `move_animations` run:
a name carried by some record resolves to its deterministic handle id; a
name carried by no record is untouched. -/
theorem move_animations_index_lookup (path n : String) :
    ∀ (data : List AnimationData) (sd : List (SpriteData HandleId))
      (atlas : Atlas) (ah : HandleId) (anims : Store Animation)
      (fa : AseAssetMap) (res : Store Animation × AseAssetMap),
      move_animations path data sd atlas ah anims fa = some res →
      ((data.any (fun a => decide (a.tag = some n)) = true →
        lookupKV res.2.animations n = some (handle_id.animation path n)) ∧
       (data.any (fun a => decide (a.tag = some n)) = false →
        lookupKV res.2.animations n = lookupKV fa.animations n)) := by
  intro data
  induction data with
  | nil =>
    intro sd atlas ah anims fa res h
    simp only [move_animations, Option.some.injEq] at h
    subst h
    exact ⟨fun hx => by simp at hx, fun _ => rfl⟩
  | cons a rest ih =>
    intro sd atlas ah anims fa res h
    cases ha : a.tag with
    | none =>
      rw [move_animations_cons_none path a rest sd atlas ah anims fa ha] at h
      have hrec := ih sd atlas ah anims fa res h
      constructor
      · intro hx
        exact hrec.1 (by simpa [ha] using hx)
      · intro hx
        exact hrec.2 (by simpa [ha] using hx)
    | some t =>
      cases hf : frames_of sd atlas a.sprites with
      | none =>
        rw [move_animations_cons_tag_panic path a rest sd atlas ah anims fa t
          ha hf] at h
        exact absurd h (by simp)
      | some frames =>
        rw [move_animations_cons_tag path a rest sd atlas ah anims fa t frames
          ha hf] at h
        have hrec := ih sd atlas ah _ _ res h
        by_cases htn : t = n
        · subst htn
          constructor
          · intro _
            cases hr : rest.any (fun a => decide (a.tag = some t)) with
            | true => exact hrec.1 hr
            | false =>
              rw [hrec.2 hr]
              simp [AseAssetMap.insert_animation, lookupKV_insertKV]
          · intro hx
            simp [ha] at hx
        · constructor
          · intro hx
            exact hrec.1 (by simpa [ha, htn] using hx)
          · intro hx
            rw [hrec.2 (by simpa [ha, htn] using hx)]
            simp [AseAssetMap.insert_animation, lookupKV_insertKV, htn]

/-- A successful `move_animations` run keeps at most one index binding per
tag name. -/
theorem move_animations_index_le (path n : String) :
    ∀ (data : List AnimationData) (sd : List (SpriteData HandleId))
      (atlas : Atlas) (ah : HandleId) (anims : Store Animation)
      (fa : AseAssetMap) (res : Store Animation × AseAssetMap),
      move_animations path data sd atlas ah anims fa = some res →
      countKey fa.animations n ≤ 1 →
      countKey res.2.animations n ≤ 1 := by
  intro data
  induction data with
  | nil =>
    intro sd atlas ah anims fa res h hle
    simp only [move_animations, Option.some.injEq] at h
    subst h
    exact hle
  | cons a rest ih =>
    intro sd atlas ah anims fa res h hle
    cases ha : a.tag with
    | none =>
      rw [move_animations_cons_none path a rest sd atlas ah anims fa ha] at h
      exact ih sd atlas ah anims fa res h hle
    | some t =>
      cases hf : frames_of sd atlas a.sprites with
      | none =>
        rw [move_animations_cons_tag_panic path a rest sd atlas ah anims fa t
          ha hf] at h
        exact absurd h (by simp)
      | some frames =>
        rw [move_animations_cons_tag path a rest sd atlas ah anims fa t frames
          ha hf] at h
        exact ih sd atlas ah _ _ res h (countKey_insertKV_le _ _ _ _ hle)

/-- A successful `move_animations` run keeps at most one store binding per
handle id. -/
theorem move_animations_store_le (path : String) (key : HandleId) :
    ∀ (data : List AnimationData) (sd : List (SpriteData HandleId))
      (atlas : Atlas) (ah : HandleId) (anims : Store Animation)
      (fa : AseAssetMap) (res : Store Animation × AseAssetMap),
      move_animations path data sd atlas ah anims fa = some res →
      countKey anims key ≤ 1 →
      countKey res.1 key ≤ 1 := by
  intro data
  induction data with
  | nil =>
    intro sd atlas ah anims fa res h hle
    simp only [move_animations, Option.some.injEq] at h
    subst h
    exact hle
  | cons a rest ih =>
    intro sd atlas ah anims fa res h hle
    cases ha : a.tag with
    | none =>
      rw [move_animations_cons_none path a rest sd atlas ah anims fa ha] at h
      exact ih sd atlas ah anims fa res h hle
    | some t =>
      cases hf : frames_of sd atlas a.sprites with
      | none =>
        rw [move_animations_cons_tag_panic path a rest sd atlas ah anims fa t
          ha hf] at h
        exact absurd h (by simp)
      | some frames =>
        rw [move_animations_cons_tag path a rest sd atlas ah anims fa t frames
          ha hf] at h
        exact ih sd atlas ah _ _ res h (countKey_insertKV_le _ _ _ _ hle)

/-- A successful `move_animations` run never removes store bindings. -/
theorem move_animations_store_mono (path : String) (key : HandleId) :
    ∀ (data : List AnimationData) (sd : List (SpriteData HandleId))
      (atlas : Atlas) (ah : HandleId) (anims : Store Animation)
      (fa : AseAssetMap) (res : Store Animation × AseAssetMap),
      move_animations path data sd atlas ah anims fa = some res →
      countKey anims key ≤ countKey res.1 key := by
  intro data
  induction data with
  | nil =>
    intro sd atlas ah anims fa res h
    simp only [move_animations, Option.some.injEq] at h
    subst h
    exact Nat.le_refl _
  | cons a rest ih =>
    intro sd atlas ah anims fa res h
    cases ha : a.tag with
    | none =>
      rw [move_animations_cons_none path a rest sd atlas ah anims fa ha] at h
      exact ih sd atlas ah anims fa res h
    | some t =>
      cases hf : frames_of sd atlas a.sprites with
      | none =>
        rw [move_animations_cons_tag_panic path a rest sd atlas ah anims fa t
          ha hf] at h
        exact absurd h (by simp)
      | some frames =>
        rw [move_animations_cons_tag path a rest sd atlas ah anims fa t frames
          ha hf] at h
        exact Nat.le_trans (countKey_insertKV_ge _ _ _ _) (ih sd atlas ah _ _ res h)

/-- A record carrying tag name `n` forces a store binding for its handle id
in any successful run. -/
theorem move_animations_store_pos (path n : String) :
    ∀ (data : List AnimationData) (sd : List (SpriteData HandleId))
      (atlas : Atlas) (ah : HandleId) (anims : Store Animation)
      (fa : AseAssetMap) (res : Store Animation × AseAssetMap),
      move_animations path data sd atlas ah anims fa = some res →
      data.any (fun a => decide (a.tag = some n)) = true →
      1 ≤ countKey res.1 (handle_id.animation path n) := by
  intro data
  induction data with
  | nil => intro sd atlas ah anims fa res h hany; simp at hany
  | cons a rest ih =>
    intro sd atlas ah anims fa res h hany
    cases ha : a.tag with
    | none =>
      rw [move_animations_cons_none path a rest sd atlas ah anims fa ha] at h
      exact ih sd atlas ah anims fa res h (by simpa [ha] using hany)
    | some t =>
      cases hf : frames_of sd atlas a.sprites with
      | none =>
        rw [move_animations_cons_tag_panic path a rest sd atlas ah anims fa t
          ha hf] at h
        exact absurd h (by simp)
      | some frames =>
        rw [move_animations_cons_tag path a rest sd atlas ah anims fa t frames
          ha hf] at h
        by_cases htn : t = n
        · subst htn
          refine Nat.le_trans ?_ (move_animations_store_mono path _ rest sd
            atlas ah _ _ res h)
          rw [countKey_insertKV]
          by_cases hc : countKey anims (handle_id.animation path t) = 0 ∧
              handle_id.animation path t = handle_id.animation path t
          · rw [if_pos hc]; omega
          · rw [if_neg hc]
            have hnz : ¬ countKey anims (handle_id.animation path t) = 0 := by
              intro h0
              exact hc ⟨h0, rfl⟩
            omega
        · exact ih sd atlas ah _ _ res h (by simpa [ha, htn] using hany)

/-- The frames loop succeeds when every sprite index is in range and every
referenced texture is in the atlas. -/
theorem frames_of_isSome (sd : List (SpriteData HandleId)) (atlas : Atlas) :
    ∀ ids : List Nat,
      (∀ sid ∈ ids, ∃ ts, sd[sid]? = some ts ∧
        (atlas.get_texture_index ts.texture).isSome = true) →
      (frames_of sd atlas ids).isSome = true := by
  intro ids
  induction ids with
  | nil => intro _; rfl
  | cons sid rest ih =>
    intro hall
    obtain ⟨ts, hts, hidx⟩ := hall sid (List.mem_cons_self sid rest)
    have hrest := ih (fun s hs => hall s (List.mem_cons_of_mem sid hs))
    cases hrec : frames_of sd atlas rest with
    | none => rw [hrec] at hrest; simp at hrest
    | some fs =>
      cases hidx2 : atlas.get_texture_index ts.texture with
      | none => rw [hidx2] at hidx; simp at hidx
      | some i => simp [frames_of, hts, hidx2, hrec]

/-- If every record's sprite list resolves, `move_animations` cannot panic. -/
theorem move_animations_total (path : String) :
    ∀ (data : List AnimationData) (sd : List (SpriteData HandleId))
      (atlas : Atlas) (ah : HandleId) (anims : Store Animation) (fa : AseAssetMap),
      (∀ a ∈ data, (frames_of sd atlas a.sprites).isSome = true) →
      ∃ res, move_animations path data sd atlas ah anims fa = some res := by
  intro data
  induction data with
  | nil => intro sd atlas ah anims fa _; exact ⟨(anims, fa), rfl⟩
  | cons a rest ih =>
    intro sd atlas ah anims fa hall
    cases ha : a.tag with
    | none =>
      obtain ⟨res, hres⟩ := ih sd atlas ah anims fa
        (fun b hb => hall b (List.mem_cons_of_mem a hb))
      refine ⟨res, ?_⟩
      rw [move_animations_cons_none path a rest sd atlas ah anims fa ha]
      exact hres
    | some t =>
      have hsome := hall a (List.mem_cons_self a rest)
      cases hf : frames_of sd atlas a.sprites with
      | none => rw [hf] at hsome; simp at hsome
      | some frames =>
        obtain ⟨res, hres⟩ := ih sd atlas ah
          (insertKV anims (handle_id.animation path t) ⟨frames, ah⟩)
          (fa.insert_animation t (handle_id.animation path t))
          (fun b hb => hall b (List.mem_cons_of_mem a hb))
        refine ⟨res, ?_⟩
        rw [move_animations_cons_tag path a rest sd atlas ah anims fa t frames
          ha hf]
        exact hres

/-- C8: for a file containing two tags with the same name, extraction keeps
both animation records; materialization — on inputs where its sprite
references are in range and their textures are in the atlas, which is what
`move_sprites` guarantees for its own output (any other input panics the
system via `&sprite_data[i]` / the atlas-index `.expect`) — completes
without panicking and deterministically keeps exactly one animation asset
under that name (all records with the name share the name-derived handle
id, so the last one in tag order wins — the tie-break documented in
`handle_id.rs`), and the per-file index lookup of that name returns that
valid handle. -/
theorem c8_duplicate_tag_names (path tagN : String) (f : AsepriteFile)
    (d : ResourceData) (pre mid post : List Tag) (t1 t2 : Tag)
    (hsplit : f.tags = pre ++ t1 :: mid ++ t2 :: post)
    (h1 : t1.name = tagN) (h2 : t2.name = tagN)
    (hok : ResourceData.new path f = .ok d)
    (sd : List (SpriteData HandleId)) (atlas : Atlas) (ah : HandleId)
    (anims : Store Animation) (fa : AseAssetMap)
    (hfa : countKey fa.animations tagN ≤ 1)
    (hst : countKey anims (handle_id.animation path tagN) ≤ 1)
    (hsd : ∀ a ∈ d.anims, ∀ sid ∈ a.sprites, sid < sd.length)
    (hatlas : ∀ ts ∈ sd, ((Atlas.get_texture_index atlas ts.texture)).isSome = true) :
    2 ≤ d.anims.countP (fun a => decide (a.tag = some tagN)) ∧
    ∃ res, move_animations path d.anims sd atlas ah anims fa = some res ∧
      lookupKV res.2.animations tagN = some (handle_id.animation path tagN) ∧
      countKey res.2.animations tagN = 1 ∧
      countKey res.1 (handle_id.animation path tagN) = 1 := by
  obtain ⟨-, ha, -, -⟩ := ResourceData.new_ok path f d hok
  rw [anims_tail_eq] at ha
  have hcount : 2 ≤ d.anims.countP (fun a => decide (a.tag = some tagN)) := by
    rw [ha, hsplit]
    simp [List.countP_cons, List.countP_append, List.countP_map, Function.comp,
      AnimationData.from_tag, AnimationData.new, h1, h2]
    omega
  have hany : d.anims.any (fun a => decide (a.tag = some tagN)) = true := by
    rw [List.any_eq_true]
    have hpos : 0 < d.anims.countP (fun a => decide (a.tag = some tagN)) := by
      omega
    rw [List.countP_pos_iff] at hpos
    exact hpos
  have hframes : ∀ a ∈ d.anims, (frames_of sd atlas a.sprites).isSome = true := by
    intro a hmem
    refine frames_of_isSome sd atlas a.sprites ?_
    intro sid hsid
    have hlt := hsd a hmem sid hsid
    refine ⟨sd.get ⟨sid, hlt⟩, ?_, ?_⟩
    · exact List.getElem?_eq_getElem hlt
    · exact hatlas _ (List.get_mem sd sid hlt)
  obtain ⟨res, hres⟩ := move_animations_total path d.anims sd atlas ah anims fa
    hframes
  have hlook := (move_animations_index_lookup path tagN d.anims sd atlas ah
    anims fa res hres).1 hany
  refine ⟨hcount, res, hres, hlook, ?_, ?_⟩
  · have hle := move_animations_index_le path tagN d.anims sd atlas ah anims
      fa res hres hfa
    have hge := lookupKV_some_countKey_pos _ _ _ hlook
    omega
  · have hle := move_animations_store_le path (handle_id.animation path tagN)
      d.anims sd atlas ah anims fa res hres hst
    have hge := move_animations_store_pos path tagN d.anims sd atlas ah anims
      fa res hres hany
    omega

def c8File : AsepriteFile :=
  ⟨[⟨1, 100⟩], [⟨"Idle", 0, 0⟩, ⟨"Idle", 0, 0⟩], [], [], 8, 8⟩

def c8Data : ResourceData :=
  ⟨[⟨0, ⟨8, 8, 1⟩, 100⟩],
   [⟨"p", none, [0]⟩, ⟨"p", some "Idle", [0]⟩, ⟨"p", some "Idle", [0]⟩], [], []⟩

def c8Sd : List (SpriteData HandleId) := [⟨0, "p#FrameImage0", 100⟩]

def c8Atlas : Atlas := ⟨["p#FrameImage0"]⟩

theorem c8_witness :
    ∃ res, move_animations "p" c8Data.anims c8Sd c8Atlas "p#Atlas" []
        AseAssetMap.empty = some res ∧
      lookupKV res.2.animations "Idle" = some (handle_id.animation "p" "Idle") ∧
      countKey res.2.animations "Idle" = 1 ∧
      countKey res.1 (handle_id.animation "p" "Idle") = 1 :=
  (c8_duplicate_tag_names "p" "Idle" c8File c8Data [] [] [] ⟨"Idle", 0, 0⟩
    ⟨"Idle", 0, 0⟩ rfl rfl rfl rfl c8Sd c8Atlas "p#Atlas" [] AseAssetMap.empty
    (by decide) (by decide) (by decide) (by decide)).2

/-! ## Claim C9 — resubmitting a handle before dispatch is idempotent -/

/-- The `spawn_tasks` collection loop sees a duplicated handle once: the
first visit swaps the document out (leaving `Processed`), so the second
visit finds nothing to take and contributes no file. -/
theorem collect_dup (a : Store AseAsset) (h : HandleId) (asset : AseAsset)
    (hGet : lookupKV a h = some asset) :
    collectAseFiles a [h, h] = collectAseFiles a [h] := by
  have h1 : lookupKV (insertKV a h { asset with data := AseData.Processed }) h =
      some { asset with data := AseData.Processed } := by
    rw [lookupKV_insertKV]
    simp
  have h2 := insertKV_self _ h _ h1
  simp only [collectAseFiles, hGet, h1, h2]

/-- C9: a pending list `[h, h]` (the same file handle submitted twice before
dispatch) dispatches exactly the same batch, with the same store mutation
and the same counter bump, as a pending list `[h]`; every downstream state
(outbox bundle, materialized stores, index, atlas) is therefore identical
to the submitted-once run. -/
theorem c9_resubmit_idempotent (h : HandleId) (a : Store AseAsset) (l : Loader)
    (asset : AseAsset) (hGet : lookupKV a h = some asset)
    (hT : l.todo_handles = [h, h]) :
    Loader.spawn_tasks l a =
      Loader.spawn_tasks { l with todo_handles := [h] } a := by
  unfold Loader.spawn_tasks
  rw [hT]
  simp only [List.isEmpty_cons, Bool.false_eq_true, if_false]
  rw [collect_dup a h asset hGet]

def c9File : AsepriteFile := ⟨[⟨3, 80⟩], [], [], [], 16, 16⟩

def c9Ase : Store AseAsset := [("h", ⟨AseData.Loaded c9File, "p"⟩)]

theorem c9_witness :
    Loader.spawn_tasks ⟨["h", "h"], 0, []⟩ c9Ase =
      Loader.spawn_tasks ⟨["h"], 0, []⟩ c9Ase :=
  c9_resubmit_idempotent "h" c9Ase ⟨["h", "h"], 0, []⟩
    ⟨AseData.Loaded c9File, "p"⟩ rfl rfl

/-! ## Claim C10 — the whole-file default animation is never materialized -/

/-- C10: extraction always produces the whole-file default animation (tag
absent) as the first animation record, and `move_animations` skips records
without a tag name entirely — the default animation is never inserted into
the animation store or the lookup index. -/
theorem c10_default_animation_not_materialized (path : String) (f : AsepriteFile)
    (d : ResourceData) (hok : ResourceData.new path f = .ok d)
    (sd : List (SpriteData HandleId)) (atlas : Atlas) (ah : HandleId)
    (anims : Store Animation) (fa : AseAssetMap) :
    ∃ d0 rest, d.anims = d0 :: rest ∧ d0.tag = none ∧
      move_animations path d.anims sd atlas ah anims fa =
        move_animations path rest sd atlas ah anims fa := by
  obtain ⟨-, ha, -, -⟩ := ResourceData.new_ok path f d hok
  refine ⟨_, _, ha, rfl, ?_⟩
  rw [ha]
  simp [move_animations, AnimationData.new]

def c10File : AsepriteFile := ⟨[⟨4, 90⟩], [⟨"run", 0, 0⟩], [], [], 8, 8⟩

def c10Data : ResourceData :=
  ⟨[⟨0, ⟨8, 8, 4⟩, 90⟩], [⟨"p", none, [0]⟩, ⟨"p", some "run", [0]⟩], [], []⟩

theorem c10_witness :
    ∃ d0 rest, c10Data.anims = d0 :: rest ∧ d0.tag = none ∧
      move_animations "p" c10Data.anims [] ⟨[]⟩ "" [] AseAssetMap.empty =
        move_animations "p" rest [] ⟨[]⟩ "" [] AseAssetMap.empty :=
  c10_default_animation_not_materialized "p" c10File c10Data rfl
    [] ⟨[]⟩ "" [] AseAssetMap.empty

end BevyAse
